import Mathlib

/-!
Verification development for the `inbash` repository.

Part 1 embeds the image placement and sizing geometry of
`mac/add-photo-to-pdf.py` (class `PDFImageInserter`): the size resolver
`calculate_image_size` and the position resolver `calculate_position`.
Python floats are modelled as exact rationals (`ℚ`); optional arguments
become `Option ℚ` / `Option String`.  Both Python methods are infallible
(they contain no `raise`), so their embeddings return
`Except _ (ℚ × ℚ)` values that are always `.ok`; the error types
`SizeError` / `PosError` exist so that the specification's error
taxonomy (`InvalidDirective`, `UnknownAnchor`) is statable about them.
The external image decoder (`fitz.Pixmap`, which supplies the original
image dimensions in the source) is an external collaborator, so the
original dimensions are passed as explicit arguments.

Part 2 embeds the `ollama ps` output parsing of
`benchmarks/gpu_info.py :: get_ollama_gpu_info` (fixed-column-offset
strategy with a whitespace-split fallback; the split strategy is the
same parsing loop as `ollama_benchmark.py :: get_ollama_gpu_info`).
Python strings are modelled as `List Char`, matching Python's
per-character indexing and slicing.
-/

deriving instance DecidableEq for Except

/-- Error taxonomy of the spec for size resolution.  The source never
raises it; it is present so that "fails with InvalidDirective" is a
statable outcome of the embedded function. -/
inductive SizeError where
  | InvalidDirective
deriving DecidableEq, Repr

/-- Error taxonomy of the spec for position resolution.  The source never
raises it; it is present so that "fails with UnknownAnchor" is a statable
outcome of the embedded function. -/
inductive PosError where
  | UnknownAnchor
deriving DecidableEq, Repr

/-- `PDFImageInserter.POSITIONS`: named anchors mapped to their
`(is_left, is_top)` flags; `center` maps to `(None, None)` in the source. -/
def POSITIONS : List (String × (Option Bool × Option Bool)) :=
  [("top-left", (some true, some true)),
   ("top-right", (some false, some true)),
   ("bottom-left", (some true, some false)),
   ("bottom-right", (some false, some false)),
   ("center", (none, none))]

/-- `PDFImageInserter.DEFAULT_WIDTH` (35mm ID-photo width ≈ 99 points). -/
def DEFAULT_WIDTH : ℚ := 99

/-- `PDFImageInserter.DEFAULT_HEIGHT` (45mm ID-photo height ≈ 127 points). -/
def DEFAULT_HEIGHT : ℚ := 127

/-- The Python default of the `margin` parameter of `calculate_position`. -/
def DEFAULT_MARGIN : ℚ := 20

/-- `PDFImageInserter.calculate_position` (add-photo-to-pdf.py lines
189-242).  If custom coordinates `x, y` are both given they are returned
verbatim; otherwise a named position is looked up in `POSITIONS`
(`center` is special-cased, the rest use the `(is_left, is_top)` flags);
any other position — including `none` — falls through to the final
top-right fallback `(page_width - img_width - margin,
page_height - img_height - margin)`.  The source never raises. -/
def calculate_position (page_width page_height img_width img_height : ℚ)
    (position : Option String) (x y : Option ℚ) (margin : ℚ) :
    Except PosError (ℚ × ℚ) :=
  match x, y with
  | some xv, some yv => .ok (xv, yv)
  | _, _ =>
    match position with
    | some p =>
      match POSITIONS.lookup p with
      | some (is_left, is_top) =>
        if p = "center" then
          .ok ((page_width - img_width) / 2, (page_height - img_height) / 2)
        else
          let xv := if is_left = some true then margin
                    else page_width - img_width - margin
          let yv := if is_top = some true then page_height - img_height - margin
                    else margin
          .ok (xv, yv)
      | none =>
        .ok (page_width - img_width - margin, page_height - img_height - margin)
    | none =>
      .ok (page_width - img_width - margin, page_height - img_height - margin)

/-- `PDFImageInserter.calculate_image_size` (add-photo-to-pdf.py lines
244-313).  The original dimensions (obtained in the source from the
external image decoder) are explicit arguments.  Branch order follows the
source exactly: `scale` first; then both `width` and `height`
(`stretch` / `fill` / everything else = `fit`); then width-only and
height-only (governed by `keep_aspect`); then the default ID-photo size.
The source performs no input validation and never raises. -/
def calculate_image_size (original_width original_height : ℚ)
    (width height scale : Option ℚ) (keep_aspect : Bool) (fit_mode : String) :
    Except SizeError (ℚ × ℚ) :=
  let aspect_ratio := original_width / original_height
  match scale, width, height with
  | some s, _, _ => .ok (original_width * s, original_height * s)
  | none, some w, some h =>
    if fit_mode = "stretch" then
      .ok (w, h)
    else if fit_mode = "fill" then
      let scale_w := w / original_width
      let scale_h := h / original_height
      let scale_factor := max scale_w scale_h
      .ok (original_width * scale_factor, original_height * scale_factor)
    else
      let scale_w := w / original_width
      let scale_h := h / original_height
      let scale_factor := min scale_w scale_h
      .ok (original_width * scale_factor, original_height * scale_factor)
  | none, some w, none =>
    if keep_aspect then .ok (w, w / aspect_ratio) else .ok (w, original_height)
  | none, none, some h =>
    if keep_aspect then .ok (h * aspect_ratio, h) else .ok (original_width, h)
  | none, none, none => .ok (DEFAULT_WIDTH, DEFAULT_HEIGHT)

/-- C4: `Scale(factor)` is the first branch: it returns the original
dimensions multiplied componentwise by the factor, ignoring the fit mode,
the aspect flag and any width/height arguments; `Scale(0.5)` on a 400×600
image yields `(200, 300)`. -/
theorem calculate_image_size_scale :
    ∀ ow oh f : ℚ, ∀ w h : Option ℚ, ∀ ka : Bool, ∀ fm : String,
    0 < ow → 0 < oh → 0 < f →
    calculate_image_size ow oh w h (some f) ka fm = .ok (ow * f, oh * f) ∧
    calculate_image_size 400 600 none none (some (1/2)) true "fit"
      = .ok (200, 300) := by
  intro ow oh f w h ka fm how hoh hf
  constructor
  · simp [calculate_image_size]
  · simp only [calculate_image_size]
    norm_num

/-- Witness for `calculate_image_size_scale` at the spec's scenario. -/
theorem calculate_image_size_scale_witness :
    (0 : ℚ) < 400 ∧ (0 : ℚ) < 600 ∧ (0 : ℚ) < 1/2 ∧
    (calculate_image_size 400 600 none none (some (1/2)) true "fit"
        = .ok (400 * (1/2), 600 * (1/2)) ∧
     calculate_image_size 400 600 none none (some (1/2)) true "fit"
        = .ok (200, 300)) :=
  ⟨by norm_num, by norm_num, by norm_num,
   calculate_image_size_scale 400 600 (1/2) none none true "fit"
     (by norm_num) (by norm_num) (by norm_num)⟩

/-- C5: anchor `top-right` resolves to
`(page.width - size.width - margin, page.height - size.height - margin)`;
in particular page 595×842, size (99, 127), margin 20 gives (476, 695). -/
theorem calculate_position_top_right :
    ∀ pw ph iw ih m : ℚ,
    calculate_position pw ph iw ih (some "top-right") none none m
      = .ok (pw - iw - m, ph - ih - m) ∧
    calculate_position 595 842 99 127 (some "top-right") none none 20
      = .ok (476, 695) := by
  intro pw ph iw ih m
  constructor
  · simp only [calculate_position, POSITIONS, List.lookup, String.reduceBEq,
      String.reduceEq]
    norm_num
  · simp only [calculate_position, POSITIONS, List.lookup, String.reduceBEq,
      String.reduceEq]
    norm_num

/-- C6: anchor `center` resolves to an origin whose center coincides with
the page center on both axes, for every page, size and margin. -/
theorem calculate_position_center :
    ∀ pw ph iw ih m : ℚ, ∃ x y : ℚ,
    calculate_position pw ph iw ih (some "center") none none m = .ok (x, y) ∧
    x + iw / 2 = pw / 2 ∧ y + ih / 2 = ph / 2 := by
  intro pw ph iw ih m
  refine ⟨(pw - iw) / 2, (ph - ih) / 2, ?_, by ring, by ring⟩
  simp only [calculate_position, POSITIONS, List.lookup, String.reduceBEq,
    String.reduceEq]
  norm_num

/-- C10: with both width and height given, every fit mode other than
`stretch` and `fill` — any string whatsoever — lands in the final `else`
branch, which applies the minimum of the two scale factors to the original
dimensions; `keep_aspect` is not consulted. -/
theorem calculate_image_size_fit_default_branch :
    ∀ ow oh w h : ℚ, ∀ ka : Bool, ∀ fm : String,
    fm ≠ "stretch" → fm ≠ "fill" →
    calculate_image_size ow oh (some w) (some h) none ka fm
      = .ok (ow * min (w / ow) (h / oh), oh * min (w / ow) (h / oh)) := by
  intro ow oh w h ka fm h1 h2
  simp [calculate_image_size, h1, h2]

/-- Witness for `calculate_image_size_fit_default_branch` at an
unrecognized fit mode. -/
theorem calculate_image_size_fit_default_branch_witness :
    "weird" ≠ "stretch" ∧ "weird" ≠ "fill" ∧
    calculate_image_size 400 600 (some 200) (some 200) none false "weird"
      = .ok (400 * min ((200 : ℚ) / 400) ((200 : ℚ) / 600),
             600 * min ((200 : ℚ) / 400) ((200 : ℚ) / 600)) :=
  ⟨by simp, by simp,
   calculate_image_size_fit_default_branch 400 600 200 200 false "weird"
     (by simp) (by simp)⟩

/-- C7: size resolution is deterministic — it is a pure function of its
arguments (original dimensions, width/height/scale options, aspect flag,
fit mode), so identical inputs always give identical outputs.  The
embedding is a total function, so the call has no side effects. -/
theorem calculate_image_size_deterministic :
    ∀ owa oha : ℚ, ∀ wa ha sa : Option ℚ, ∀ kaa : Bool, ∀ fma : String,
    ∀ owb ohb : ℚ, ∀ wb hb sb : Option ℚ, ∀ kab : Bool, ∀ fmb : String,
    owa = owb → oha = ohb → wa = wb → ha = hb → sa = sb → kaa = kab →
    fma = fmb →
    calculate_image_size owa oha wa ha sa kaa fma
      = calculate_image_size owb ohb wb hb sb kab fmb := by
  intro owa oha wa ha sa kaa fma owb ohb wb hb sb kab fmb e1 e2 e3 e4 e5 e6 e7
  subst e1; subst e2; subst e3; subst e4; subst e5; subst e6; subst e7
  rfl

/-- Witness for `calculate_image_size_deterministic` on concrete equal
inputs. -/
theorem calculate_image_size_deterministic_witness :
    calculate_image_size 400 600 (some 200) (some 200) none true "fit"
      = calculate_image_size 400 600 (some 200) (some 200) none true "fit" :=
  calculate_image_size_deterministic 400 600 (some 200) (some 200) none true
    "fit" 400 600 (some 200) (some 200) none true "fit"
    rfl rfl rfl rfl rfl rfl rfl

/-- C1: with both targets given and a target box whose aspect differs from
the original, mode `fit` stays within the box on both axes, mode `fill`
covers the box on both axes, both preserve the original aspect ratio
exactly (the embedding computes in `ℚ`), and original 400×600 with target
(200, 200) in mode `fill` gives (200, 300). -/
theorem calculate_image_size_fit_fill :
    ∀ ow oh w h : ℚ, ∀ ka : Bool,
    0 < ow → 0 < oh → 0 < w → 0 < h → w / h ≠ ow / oh →
    (∃ a b : ℚ,
       calculate_image_size ow oh (some w) (some h) none ka "fit"
         = .ok (a, b) ∧ a ≤ w ∧ b ≤ h ∧ a / b = ow / oh) ∧
    (∃ a b : ℚ,
       calculate_image_size ow oh (some w) (some h) none ka "fill"
         = .ok (a, b) ∧ w ≤ a ∧ h ≤ b ∧ a / b = ow / oh) ∧
    calculate_image_size 400 600 (some 200) (some 200) none true "fill"
      = .ok (200, 300) := by
  intro ow oh w h ka how hoh hw hh hne
  have hwo : 0 < w / ow := div_pos hw how
  have hho : 0 < h / oh := div_pos hh hoh
  have hmin : 0 < min (w / ow) (h / oh) := lt_min_iff.mpr ⟨hwo, hho⟩
  have hmax : 0 < max (w / ow) (h / oh) := lt_max_iff.mpr (Or.inl hwo)
  refine ⟨⟨ow * min (w / ow) (h / oh), oh * min (w / ow) (h / oh),
           by simp [calculate_image_size], ?_, ?_, ?_⟩,
          ⟨ow * max (w / ow) (h / oh), oh * max (w / ow) (h / oh),
           by simp [calculate_image_size], ?_, ?_, ?_⟩, ?_⟩
  · calc ow * min (w / ow) (h / oh)
        ≤ ow * (w / ow) := mul_le_mul_of_nonneg_left (min_le_left _ _) how.le
      _ = w := mul_div_cancel₀ w (ne_of_gt how)
  · calc oh * min (w / ow) (h / oh)
        ≤ oh * (h / oh) := mul_le_mul_of_nonneg_left (min_le_right _ _) hoh.le
      _ = h := mul_div_cancel₀ h (ne_of_gt hoh)
  · exact mul_div_mul_right ow oh hmin.ne'
  · calc w = ow * (w / ow) := (mul_div_cancel₀ w (ne_of_gt how)).symm
      _ ≤ ow * max (w / ow) (h / oh) :=
          mul_le_mul_of_nonneg_left (le_max_left _ _) how.le
  · calc h = oh * (h / oh) := (mul_div_cancel₀ h (ne_of_gt hoh)).symm
      _ ≤ oh * max (w / ow) (h / oh) :=
          mul_le_mul_of_nonneg_left (le_max_right _ _) hoh.le
  · exact mul_div_mul_right ow oh hmax.ne'
  · simp only [calculate_image_size, String.reduceEq]
    norm_num [max_def]

/-- Witness for `calculate_image_size_fit_fill` at the spec's scenario
(original 400×600, target box 200×200). -/
theorem calculate_image_size_fit_fill_witness :
    ((0 : ℚ) < 400 ∧ (0 : ℚ) < 600 ∧ (0 : ℚ) < 200 ∧
     (200 : ℚ) / 200 ≠ (400 : ℚ) / 600) ∧
    ((∃ a b : ℚ,
        calculate_image_size 400 600 (some 200) (some 200) none true "fit"
          = .ok (a, b) ∧ a ≤ 200 ∧ b ≤ 200 ∧ a / b = 400 / 600) ∧
     (∃ a b : ℚ,
        calculate_image_size 400 600 (some 200) (some 200) none true "fill"
          = .ok (a, b) ∧ 200 ≤ a ∧ 200 ≤ b ∧ a / b = 400 / 600) ∧
     calculate_image_size 400 600 (some 200) (some 200) none true "fill"
       = .ok (200, 300)) :=
  ⟨⟨by norm_num, by norm_num, by norm_num, by norm_num⟩,
   calculate_image_size_fit_fill 400 600 200 200 true
     (by norm_num) (by norm_num) (by norm_num) (by norm_num) (by norm_num)⟩

/-- C2 counterexample: with the unrecognized anchor "middle" and margin 30
on an A4 page with the default-size photo, `calculate_position` neither
fails with `UnknownAnchor` nor produces the top-right placement with the
default margin 20 (namely (476, 695)); it produces (466, 685), the
top-right placement computed with the *supplied* margin 30. -/
theorem calculate_position_unknown_cex :
    calculate_position 595 842 99 127 (some "middle") none none 30
      = .ok (466, 685) ∧
    ¬ (calculate_position 595 842 99 127 (some "middle") none none 30
         = .error PosError.UnknownAnchor ∨
       calculate_position 595 842 99 127 (some "middle") none none 30
         = .ok (595 - 99 - DEFAULT_MARGIN, 842 - 127 - DEFAULT_MARGIN)) := by
  have he : calculate_position 595 842 99 127 (some "middle") none none 30
      = .ok (466, 685) := by
    simp only [calculate_position, POSITIONS, List.lookup, String.reduceBEq,
      String.reduceEq]
    norm_num
  refine ⟨he, ?_⟩
  rw [he]
  rintro (hc | hc)
  · simp at hc
  · rw [Except.ok.injEq, Prod.mk.injEq] at hc
    norm_num [DEFAULT_MARGIN] at hc

/-- C2 amended: an anchor outside the five known names never fails — it
falls back to the top-right placement computed with the margin that was
supplied to the call (which equals the Python default only when the caller
passes 20). -/
theorem calculate_position_unknown_fallback :
    ∀ pw ph iw ih m : ℚ, ∀ anchor : String,
    anchor ≠ "top-left" → anchor ≠ "top-right" → anchor ≠ "bottom-left" →
    anchor ≠ "bottom-right" → anchor ≠ "center" →
    calculate_position pw ph iw ih (some anchor) none none m
      = .ok (pw - iw - m, ph - ih - m) := by
  intro pw ph iw ih m anchor h1 h2 h3 h4 h5
  have e1 : (anchor == "top-left") = false := by simp [h1]
  have e2 : (anchor == "top-right") = false := by simp [h2]
  have e3 : (anchor == "bottom-left") = false := by simp [h3]
  have e4 : (anchor == "bottom-right") = false := by simp [h4]
  have e5 : (anchor == "center") = false := by simp [h5]
  simp only [calculate_position, POSITIONS, List.lookup, e1, e2, e3, e4, e5]

/-- Witness for `calculate_position_unknown_fallback` at the anchor
"middle" with margin 30. -/
theorem calculate_position_unknown_fallback_witness :
    ("middle" ≠ "top-left" ∧ "middle" ≠ "top-right" ∧
     "middle" ≠ "bottom-left" ∧ "middle" ≠ "bottom-right" ∧
     "middle" ≠ "center") ∧
    calculate_position 595 842 99 127 (some "middle") none none 30
      = .ok (595 - 99 - 30, 842 - 127 - 30) :=
  ⟨⟨by simp, by simp, by simp, by simp, by simp⟩,
   calculate_position_unknown_fallback 595 842 99 127 30 "middle"
     (by simp) (by simp) (by simp) (by simp) (by simp)⟩

/-- C3 counterexample: the source performs no validation.  A scale factor
of 0 (≤ 0) returns the dimensions (0, 0) rather than failing with
`InvalidDirective`, and an explicit directive with negative width under
`stretch` returns that negative width verbatim. -/
theorem calculate_image_size_no_error_cex :
    calculate_image_size 400 600 none none (some 0) true "fit"
      = .ok (0, 0) ∧
    calculate_image_size 400 600 none none (some 0) true "fit"
      ≠ .error SizeError.InvalidDirective ∧
    calculate_image_size 400 600 (some (-50)) (some 100) none true "stretch"
      = .ok (-50, 100) ∧
    calculate_image_size 400 600 (some (-50)) (some 100) none true "stretch"
      ≠ .error SizeError.InvalidDirective := by
  have e1 : calculate_image_size 400 600 none none (some 0) true "fit"
      = .ok (0, 0) := by
    simp only [calculate_image_size]
    norm_num
  have e2 : calculate_image_size 400 600 (some (-50)) (some 100) none true
      "stretch" = .ok (-50, 100) := by
    simp [calculate_image_size]
  exact ⟨e1, by rw [e1]; simp, e2, by rw [e2]; simp⟩

/-- C3 amended: size resolution accepts every numeric input without
validation: a non-positive scale factor yields the original dimensions
multiplied by it (hence non-positive dimensions), and non-positive
explicit width/height under `stretch` are returned verbatim; no
`InvalidDirective` failure exists in the code path. -/
theorem calculate_image_size_accepts_nonpositive :
    ∀ ow oh s w h : ℚ, ∀ ka : Bool, ∀ fm : String,
    s ≤ 0 → (w ≤ 0 ∨ h ≤ 0) →
    calculate_image_size ow oh none none (some s) ka fm
      = .ok (ow * s, oh * s) ∧
    calculate_image_size ow oh (some w) (some h) none ka "stretch"
      = .ok (w, h) := by
  intro ow oh s w h ka fm hs hwh
  constructor
  · simp [calculate_image_size]
  · simp [calculate_image_size]

/-- Witness for `calculate_image_size_accepts_nonpositive` at scale 0 and
explicit width -50. -/
theorem calculate_image_size_accepts_nonpositive_witness :
    ((0 : ℚ) ≤ 0 ∧ ((-50 : ℚ) ≤ 0 ∨ (100 : ℚ) ≤ 0)) ∧
    (calculate_image_size 400 600 none none (some 0) true "fit"
       = .ok (400 * 0, 600 * 0) ∧
     calculate_image_size 400 600 (some (-50)) (some 100) none true "stretch"
       = .ok (-50, 100)) :=
  ⟨⟨le_refl 0, Or.inl (by norm_num)⟩,
   calculate_image_size_accepts_nonpositive 400 600 0 (-50) 100 true "fit"
     (le_refl 0) (Or.inl (by norm_num))⟩

/-- C8: for positive original dimensions and any directive satisfying the
spec's preconditions (positive scale, positive provided width/height, or
nothing provided at all), the resolved dimensions are positive, under
every fit mode and aspect setting. -/
theorem calculate_image_size_positive :
    ∀ ow oh : ℚ, ∀ w h s : Option ℚ, ∀ ka : Bool, ∀ fm : String,
    0 < ow → 0 < oh →
    (∀ v, s = some v → 0 < v) →
    (∀ v, w = some v → 0 < v) →
    (∀ v, h = some v → 0 < v) →
    ∃ a b : ℚ,
      calculate_image_size ow oh w h s ka fm = .ok (a, b) ∧ 0 < a ∧ 0 < b := by
  intro ow oh w h s ka fm how hoh hs hw hh
  cases s with
  | some v =>
    exact ⟨ow * v, oh * v, by simp [calculate_image_size],
      mul_pos how (hs v rfl), mul_pos hoh (hs v rfl)⟩
  | none =>
    cases w with
    | some wv =>
      have hwv : 0 < wv := hw wv rfl
      cases h with
      | some hv =>
        have hhv : 0 < hv := hh hv rfl
        by_cases hst : fm = "stretch"
        · exact ⟨wv, hv, by simp [calculate_image_size, hst], hwv, hhv⟩
        · by_cases hfl : fm = "fill"
          · refine ⟨ow * max (wv / ow) (hv / oh), oh * max (wv / ow) (hv / oh),
              by simp [calculate_image_size, hst, hfl], ?_, ?_⟩
            · exact mul_pos how (lt_max_iff.mpr (Or.inl (div_pos hwv how)))
            · exact mul_pos hoh (lt_max_iff.mpr (Or.inl (div_pos hwv how)))
          · refine ⟨ow * min (wv / ow) (hv / oh), oh * min (wv / ow) (hv / oh),
              by simp [calculate_image_size, hst, hfl], ?_, ?_⟩
            · exact mul_pos how
                (lt_min_iff.mpr ⟨div_pos hwv how, div_pos hhv hoh⟩)
            · exact mul_pos hoh
                (lt_min_iff.mpr ⟨div_pos hwv how, div_pos hhv hoh⟩)
      | none =>
        cases ka with
        | true =>
          exact ⟨wv, wv / (ow / oh), by simp [calculate_image_size], hwv,
            div_pos hwv (div_pos how hoh)⟩
        | false =>
          exact ⟨wv, oh, by simp [calculate_image_size], hwv, hoh⟩
    | none =>
      cases h with
      | some hv =>
        have hhv : 0 < hv := hh hv rfl
        cases ka with
        | true =>
          exact ⟨hv * (ow / oh), hv, by simp [calculate_image_size],
            mul_pos hhv (div_pos how hoh), hhv⟩
        | false =>
          exact ⟨ow, hv, by simp [calculate_image_size], how, hhv⟩
      | none =>
        exact ⟨DEFAULT_WIDTH, DEFAULT_HEIGHT, by simp [calculate_image_size],
          by norm_num [DEFAULT_WIDTH], by norm_num [DEFAULT_HEIGHT]⟩

/-- Witness for `calculate_image_size_positive` with nothing provided (the
default ID-photo branch). -/
theorem calculate_image_size_positive_witness :
    (0 : ℚ) < 400 ∧ (0 : ℚ) < 600 ∧
    (∃ a b : ℚ,
       calculate_image_size 400 600 none none none true "fit" = .ok (a, b) ∧
       0 < a ∧ 0 < b) :=
  ⟨by norm_num, by norm_num,
   calculate_image_size_positive 400 600 none none none true "fit"
     (by norm_num) (by norm_num)
     (fun v hv => nomatch hv) (fun v hv => nomatch hv)
     (fun v hv => nomatch hv)⟩

/-!
Part 2: the `ollama ps` output parsing of
`benchmarks/gpu_info.py :: get_ollama_gpu_info` (lines 25-64).  Strings
are `List Char`; Python's `str.find`, `str.strip`, `str.split()` and
slicing `line[p:c]` are embedded below.  Only the two parsing loops and
their dispatch are modelled; the surrounding subprocess call and the
platform probes are external collaborators.
-/

/-- Python `str.strip()`: drop whitespace from both ends. -/
def trimChars (l : List Char) : List Char :=
  ((l.dropWhile Char.isWhitespace).reverse.dropWhile Char.isWhitespace).reverse

/-- Pattern `pat` begins the list `l`. -/
def startsWithChars : List Char → List Char → Bool
  | [], _ => true
  | _ :: _, [] => false
  | a :: pat, b :: l => a == b && startsWithChars pat l

/-- Python `str.find(pat)` as an `Option` (the source compares the result
with `-1` / `>= 0`; `none` plays the role of `-1`). -/
def findSub (pat : List Char) : List Char → Option Nat
  | [] => if pat.isEmpty then some 0 else none
  | c :: t =>
    if startsWithChars pat (c :: t) then some 0
    else (findSub pat t).map (· + 1)

/-- Python `pat in s`: substring membership. -/
def containsSub (pat l : List Char) : Bool :=
  (findSub pat l).isSome

/-- Accumulator-based worker for `splitWs`. -/
def splitWsAux : List Char → List Char → List (List Char)
  | [], acc => if acc.isEmpty then [] else [acc.reverse]
  | c :: t, acc =>
    if c.isWhitespace then
      if acc.isEmpty then splitWsAux t [] else acc.reverse :: splitWsAux t []
    else splitWsAux t (c :: acc)

/-- Python `str.split()` (no argument): split on whitespace runs,
discarding empty fields. -/
def splitWs (l : List Char) : List (List Char) :=
  splitWsAux l []

/-- Python `line[p:c]` (when `c` is present) or `line[p:]`: character
slice from `p` up to (excluding) `c`. -/
def sliceCol (p : Nat) (c : Option Nat) (l : List Char) : List Char :=
  match c with
  | some cv => (l.take cv).drop p
  | none => l.drop p

/-- The two fields of `gpu_info` that the `ollama ps` parsing loops write:
`gpu_in_use` and `gpu_layers` (initially `False` / `"N/A"`). -/
structure GpuState where
  gpu_in_use : Bool
  gpu_layers : List Char
deriving DecidableEq, Repr

/-- Initial `gpu_info` entries before any line is parsed. -/
def initGpuState : GpuState := ⟨false, "N/A".toList⟩

/-- Shared per-processor update of both loops: `"GPU" in processor.upper()`
sets `gpu_in_use` and records the processor; `elif "CPU" in ...` records
the processor only; anything else leaves the state unchanged. -/
def updProcessor (st : GpuState) (processor : List Char) : GpuState :=
  if containsSub "GPU".toList (processor.map Char.toUpper) then
    ⟨true, processor⟩
  else if containsSub "CPU".toList (processor.map Char.toUpper) then
    ⟨st.gpu_in_use, processor⟩
  else st

/-- One data line of the fixed-column strategy (gpu_info.py lines 39-52):
skip blank lines, slice the PROCESSOR column at the header's offsets,
strip it, and update. -/
def colStep (p : Nat) (c : Option Nat) (st : GpuState) (l : List Char) :
    GpuState :=
  if trimChars l ≠ [] then updProcessor st (trimChars (sliceCol p c l))
  else st

/-- One data line of the whitespace-split fallback strategy (gpu_info.py
lines 55-64, identical to the loop of
`ollama_benchmark.py :: get_ollama_gpu_info` lines 129-139): skip blank
lines, split on whitespace, and update with `parts[3]` when at least four
fields exist. -/
def splitStep (st : GpuState) (l : List Char) : GpuState :=
  if trimChars l ≠ [] then
    let parts := splitWs l
    if 4 ≤ parts.length then updProcessor st (parts.getD 3 []) else st
  else st

/-- The fixed-column-offset parsing strategy applied to all data lines. -/
def colParse (p : Nat) (c : Option Nat) (dataLines : List (List Char)) :
    GpuState :=
  dataLines.foldl (colStep p c) initGpuState

/-- The whitespace-split fallback parsing strategy applied to all data
lines. -/
def splitParse (dataLines : List (List Char)) : GpuState :=
  dataLines.foldl splitStep initGpuState

/-- The strategy dispatch of `get_ollama_gpu_info` (gpu_info.py lines
32-64): find the `PROCESSOR` and `CONTEXT` column offsets in the header;
when `PROCESSOR` is present use the fixed-column strategy, otherwise fall
back to whitespace splitting. -/
def get_ollama_gpu_info_ps (header : List Char)
    (dataLines : List (List Char)) : GpuState :=
  match findSub "PROCESSOR".toList header with
  | some processor_start =>
    colParse processor_start (findSub "CONTEXT".toList header) dataLines
  | none => splitParse dataLines

/-- Fold two step functions that agree on every element of the list. -/
theorem gpu_foldl_congr {α β : Type} (f g : β → α → β) :
    ∀ (l : List α) (st : β), (∀ st2 a, a ∈ l → f st2 a = g st2 a) →
    l.foldl f st = l.foldl g st := by
  intro l
  induction l with
  | nil => intro st hmem; rfl
  | cons a t ih =>
    intro st hmem
    simp only [List.foldl_cons]
    rw [hmem st a (List.mem_cons_self a t)]
    exact ih (g st a) (fun st2 b hb => hmem st2 b (List.mem_cons_of_mem a hb))

/-- C9: the dispatch of `get_ollama_gpu_info` is a prioritized chain (the
fixed-column strategy wins whenever the header contains `PROCESSOR`, the
whitespace-split strategy is only the fallback), and the two strategies
agree on their shared domain: whenever every non-blank data line has at
least four whitespace-separated fields and its stripped slice under the
`PROCESSOR` header column equals its fourth field, both strategies compute
the same `gpu_in_use` flag and the same `gpu_layers` value. -/
theorem gpu_parsers_agree :
    ∀ (header : List Char) (dataLines : List (List Char)) (p : Nat),
    findSub "PROCESSOR".toList header = some p →
    (∀ l ∈ dataLines, trimChars l ≠ [] →
       4 ≤ (splitWs l).length ∧
       trimChars (sliceCol p (findSub "CONTEXT".toList header) l)
         = (splitWs l).getD 3 []) →
    get_ollama_gpu_info_ps header dataLines
      = colParse p (findSub "CONTEXT".toList header) dataLines ∧
    colParse p (findSub "CONTEXT".toList header) dataLines
      = splitParse dataLines := by
  intro header dataLines p hp hal
  constructor
  · simp only [get_ollama_gpu_info_ps, hp]
  · unfold colParse splitParse
    apply gpu_foldl_congr
    intro st l hl
    by_cases hb : trimChars l ≠ []
    · obtain ⟨hlen, heq⟩ := hal l hl hb
      have h1 : colStep p (findSub "CONTEXT".toList header) st l
          = updProcessor st
              (trimChars (sliceCol p (findSub "CONTEXT".toList header) l)) := by
        simp [colStep, hb]
      have h2 : splitStep st l = updProcessor st ((splitWs l).getD 3 []) := by
        simp [splitStep, hb, hlen]
      rw [h1, h2, heq]
    · have h1 : colStep p (findSub "CONTEXT".toList header) st l = st := by
        simp [colStep, hb]
      have h2 : splitStep st l = st := by
        simp [splitStep, hb]
      rw [h1, h2]

/-- A well-formed `ollama ps` header with a `PROCESSOR` column at offset
16 and a `CONTEXT` column at offset 27. -/
def demoHeader : List Char :=
  "NAME  ID  SIZE  PROCESSOR  CONTEXT  UNTIL".toList

/-- A single data line whose fourth whitespace field `GPU` sits aligned
under the `PROCESSOR` column of `demoHeader`. -/
def demoLines : List (List Char) :=
  ["m1 x 2GB        GPU        4096 5m".toList]

/-- Witness for `gpu_parsers_agree` on `demoHeader` / `demoLines`. -/
theorem gpu_parsers_agree_witness :
    (findSub "PROCESSOR".toList demoHeader = some 16 ∧
     (∀ l ∈ demoLines, trimChars l ≠ [] →
        4 ≤ (splitWs l).length ∧
        trimChars (sliceCol 16 (findSub "CONTEXT".toList demoHeader) l)
          = (splitWs l).getD 3 [])) ∧
    (get_ollama_gpu_info_ps demoHeader demoLines
       = colParse 16 (findSub "CONTEXT".toList demoHeader) demoLines ∧
     colParse 16 (findSub "CONTEXT".toList demoHeader) demoLines
       = splitParse demoLines) :=
  ⟨⟨by decide, by decide⟩,
   gpu_parsers_agree demoHeader demoLines 16 (by decide) (by decide)⟩
